import Mathlib

/-!
Verification development for the multi-agent collaboration system
(ekipalen/ai-agents-public).  The Python source is shallowly embedded:
dictionaries become association lists over `String` keys (insertion order
preserved, keys unique as in Python dicts), `time.time()` instants become
integers, and the completion service (`get_completion`) becomes an explicit
oracle `String → Option String` (Python returns `None` on failure).
Messages published with `send_message` are modelled as structured events,
one constructor per call site, carrying the payload data of that call site
(the emoji/format text of each message is presentation and is not re-encoded;
`str.title()` formatting of agent names inside message text is likewise
presentational and the raw name is carried instead).
-/

namespace AIAgents

/-- Python dict lookup `d.get(k)` on an insertion-ordered association list. -/
def lookupA {α : Type} (l : List (String × α)) (k : String) : Option α :=
  (l.find? (fun kv => kv.1 == k)).map (·.2)

/-- Python dict write `d[k] = v`: replace in place if the key is present
(keeping its position, as Python dicts do), otherwise append. -/
def insertA {α : Type} : List (String × α) → String → α → List (String × α)
  | [], k, v => [(k, v)]
  | kv :: rest, k, v =>
    if kv.1 == k then (k, v) :: rest else kv :: insertA rest k v

/-- Python dict deletion `del d[k]` (keys are unique in a dict, so removing
every pair with the key is the same as removing the single entry). -/
def eraseA {α : Type} (l : List (String × α)) (k : String) : List (String × α) :=
  l.filter (fun kv => kv.1 != k)

/-- `original_task` dictionary of a delegated subtask.  Fields are optional
because the Python code reads them with `.get` and site-specific defaults. -/
structure OrigTask where
  task : Option String
  subtask_index : Option Int
  total_subtasks : Option Int
  original_query : Option String
deriving Repr, DecidableEq, Inhabited

/-- One entry of `collaboration['received_responses']`. -/
structure CollabResponse where
  from_agent : String
  result : String
  task : OrigTask
deriving Repr, DecidableEq, Inhabited

/-- One entry of `self.active_collaborations`
(built by `_collaborate_with_agents`). -/
structure Collab where
  task : String
  expected_agents : List String
  received_responses : List CollabResponse
  user_topic : String
  start_time : Int
  timeout : Int
deriving Repr, DecidableEq, Inhabited

/-- One entry of `self.pending_responses` (see `_handle_agent_response`). -/
structure PendingEntry where
  from_agent : String
  result : String
  task : OrigTask
  user_topic : String
deriving Repr, DecidableEq, Inhabited

/-- The assistant-agent state touched by the collaboration module. -/
structure AgentState where
  pending_responses : List (String × PendingEntry)
  active_collaborations : List (String × Collab)
deriving Repr, DecidableEq, Inhabited

/-- Structured rendering of each `self.send_message(topic, ...)` call site in
`collaboration.py`; the constructor comments give the source line. -/
inductive Event where
  /-- line 168: completion tick for one agent of a multi-subtask task -/
  | agentCompletedTask (topic : String) (agent : String)
  /-- line 295: combined completion/synthesis status of the index-based path -/
  | synthesisStatus (topic : String) (numAgents : Nat)
  /-- line 323: the synthesized answer (index-based path) -/
  | synthesized (topic : String) (formatted : String)
  /-- line 326: completion summary of the index-based path -/
  | completeSummary (topic : String) (numAgents : Nat)
  /-- line 328: synthesis produced no content (index-based path) -/
  | couldNotSynthesize (topic : String)
  /-- line 377: one received response forwarded to the user -/
  | perAgentResult (topic : String) (agent : String) (result : String)
  /-- line 379: the set of agents that responded -/
  | receivedFrom (topic : String) (agents : List String)
  /-- line 380: collaboration-complete banner -/
  | collabComplete (topic : String)
  /-- line 391: agents still outstanding -/
  | stillWaiting (topic : String) (remaining : List String)
  /-- line 414: synthesis preamble of the ad-hoc collaboration path -/
  | synthesizingCollab (topic : String) (numResponses : Nat)
  /-- line 437: the synthesized final answer of the ad-hoc path -/
  | finalAnswer (topic : String) (answer : String)
  /-- line 464: timeout notice, some responses present -/
  | timeoutProcessing (topic : String) (numResponses : Nat)
  /-- line 470: timeout with exactly one response, passed through verbatim -/
  | timeoutSingleResponse (topic : String) (agent : String) (result : String)
  /-- line 472: timeout with no responses at all -/
  | timeoutNoResponses (topic : String)
deriving Repr, DecidableEq

/-- Python `str.title()`: uppercase each letter that does not follow a
letter, lowercase the rest (used only inside synthesis prompts here). -/
def pyTitleGo : Bool → List Char → List Char
  | _, [] => []
  | prevAlpha, c :: cs =>
    (if c.isAlpha then (if prevAlpha then c.toLower else c.toUpper) else c) ::
      pyTitleGo c.isAlpha cs

/-- Python `str.title()` on a string. -/
def pyTitle (s : String) : String :=
  (pyTitleGo false s.data).asString

/-- Python `str.lower()` (ASCII-faithful). -/
def pyToLower (s : String) : String :=
  (s.data.map Char.toLower).asString

/-- Python `str.strip()`: drop leading and trailing whitespace. -/
def pyStrip (s : String) : String :=
  ((s.data.dropWhile Char.isWhitespace).reverse.dropWhile
    Char.isWhitespace).reverse.asString

/-- The synthesis prompt built by `_synthesize_collaboration_responses`
(lines 417-428), with Python string formatting spelled out. -/
def mkCollabPrompt (collaboration : Collab) : String :=
  ("\n    Synthesize these agent responses into a coherent answer:\n\n    Task: "
      ++ collaboration.task ++ "\n\n    Agent Responses:\n    ")
    ++ String.join (collaboration.received_responses.map
        (fun r => "\n" ++ pyTitle r.from_agent ++ ": " ++ r.result ++ "\n"))
    ++ "\nProvide a comprehensive, well-structured response combining all agent contributions."

/-- `_synthesize_collaboration_responses` (lines 394-437).  Takes the
completion oracle `gc`; returns the emitted user messages.  It mutates no
coordinator state. -/
def synthesizeCollabResponses (gc : String → Option String)
    (collaboration : Collab) : List Event :=
  let user_topic := collaboration.user_topic
  let responses := collaboration.received_responses
  if responses.length ≤ 1 then []
  else
    Event.synthesizingCollab user_topic responses.length ::
      (match gc (mkCollabPrompt collaboration) with
       | some synthesis_response => [Event.finalAnswer user_topic synthesis_response]
       | none => [])

/-- `_check_collaboration_completion` (lines 335-391). -/
def checkCollaborationCompletion (gc : String → Option String)
    (st : AgentState) (from_agent : String) (task_result : String)
    (original_task : OrigTask) (user_topic : String) :
    AgentState × List Event :=
  let task_description := original_task.task.getD ""
  let collaboration_key := "collaboration_" ++ task_description ++ "_" ++ user_topic
  match lookupA st.active_collaborations collaboration_key with
  | none => (st, [])
  | some collaboration =>
    let collaboration' : Collab :=
      { collaboration with
          received_responses := collaboration.received_responses ++
            [{ from_agent := from_agent, result := task_result, task := original_task }] }
    let expected_agents := collaboration'.expected_agents
    let received_agents := collaboration'.received_responses.map (·.from_agent)
    if expected_agents.all (fun a => received_agents.contains a) then
      let events :=
        (collaboration'.received_responses.map
          (fun r => Event.perAgentResult user_topic r.from_agent r.result))
        ++ [Event.receivedFrom user_topic received_agents.dedup,
            Event.collabComplete user_topic]
      let st' : AgentState :=
        { st with active_collaborations := eraseA st.active_collaborations collaboration_key }
      if collaboration'.received_responses.length > 1 then
        (st', events ++ synthesizeCollabResponses gc collaboration')
      else
        (st', events)
    else
      let remaining := expected_agents.filter (fun a => !received_agents.contains a)
      ({ st with active_collaborations :=
            insertA st.active_collaborations collaboration_key collaboration' },
       [Event.stillWaiting user_topic remaining.dedup])

/-- `_cleanup_timed_out_collaborations` (lines 440-476): sweep every active
ad-hoc collaboration; emit the per-collaboration timeout messages and remove
every timed-out session. -/
def cleanupTimedOutCollaborations (gc : String → Option String)
    (st : AgentState) (current_time : Int) : AgentState × List Event :=
  let timedOut := st.active_collaborations.filter
    (fun kv => current_time - kv.2.start_time > kv.2.timeout)
  let events := timedOut.flatMap (fun kv =>
    let collaboration := kv.2
    let user_topic := collaboration.user_topic
    match collaboration.received_responses with
    | [] => [Event.timeoutNoResponses user_topic]
    | [r] => [Event.timeoutProcessing user_topic 1,
              Event.timeoutSingleResponse user_topic r.from_agent r.result]
    | rs => Event.timeoutProcessing user_topic rs.length ::
              synthesizeCollabResponses gc collaboration)
  let remaining := st.active_collaborations.filter
    (fun kv => !(current_time - kv.2.start_time > kv.2.timeout))
  ({ st with active_collaborations := remaining }, events)

/-- Python `str.replace(old, new)` scan: left to right, non-overlapping.
The fuel equals the text length and never runs out for the nonempty
pattern used here (`". "`). -/
def pyReplaceAux (pattern repl : List Char) : Nat → List Char → List Char
  | 0, cs => cs
  | _ + 1, [] => []
  | fuel + 1, c :: rest =>
    if pattern.isPrefixOf (c :: rest) then
      repl ++ pyReplaceAux pattern repl fuel ((c :: rest).drop pattern.length)
    else c :: pyReplaceAux pattern repl fuel rest

/-- Python `str.replace(old, new)` on strings. -/
def pyReplace (s pattern repl : String) : String :=
  (pyReplaceAux pattern.data repl.data s.data.length s.data).asString

/-- The synthesis prompt built by `_synthesize_responses` (lines 298-311). -/
def mkIndexPrompt (original_query : String)
    (task_responses : List (String × PendingEntry)) : String :=
  ("\n    Synthesize these agent responses into a concise, well-structured answer:\n\n    Original Task: "
      ++ original_query ++ "\n\n    Agent Contributions:\n    ")
    ++ String.join (task_responses.map
        (fun kv => "\n" ++ pyTitle kv.2.from_agent ++ ": " ++ kv.2.result ++ "\n"))
    ++ "\nCreate a comprehensive, well-structured final response that combines all agent contributions. Include detailed analysis, key insights, and actionable recommendations. Use proper markdown formatting with headers, lists, and emphasis where appropriate."

/-- `_synthesize_responses` (lines 256-332): index-based synthesis of every
pending response whose stored `original_query` equals the given query. -/
def synthesizeResponses (gc : String → Option String)
    (st : AgentState) (original_query : String) : AgentState × List Event :=
  let task_responses := st.pending_responses.filter
    (fun kv => kv.2.task.original_query.getD "" == original_query)
  if task_responses.isEmpty then (st, [])
  else
    let unique_agents :=
      ((task_responses.map (fun kv => kv.2.from_agent)).filter (fun a => a != "")).dedup
    let num_agents := unique_agents.length
    let user_topic := (task_responses.head?.map (·.2.user_topic)).getD "user_session:main"
    let synthesis_prompt := mkIndexPrompt original_query task_responses
    let tailEvents :=
      match gc synthesis_prompt with
      | some synthesis_response =>
        [Event.synthesized user_topic (pyReplace synthesis_response ". " ".\n"),
         Event.completeSummary user_topic num_agents]
      | none => [Event.couldNotSynthesize user_topic]
    let pending' := st.pending_responses.filter
      (fun kv => kv.2.task.original_query.getD "" != original_query)
    ({ st with pending_responses := pending' },
     Event.synthesisStatus user_topic num_agents :: tailEvents)

/-- Lines 199-206 of `_handle_agent_response`: the original user query is
taken from the first pending response carrying a truthy `original_query`,
falling back to the current task description. -/
def chooseOriginalQuery (pending : List (String × PendingEntry))
    (fallback : String) : String :=
  match pending.find? (fun kv => kv.2.task.original_query.getD "" != "") with
  | some kv => kv.2.task.original_query.getD ""
  | none => fallback

/-- Lines 185-189 of `_handle_agent_response`: the set of distinct
non-negative subtask indices across the whole pending-response index,
accumulated in iteration order (Python builds a `set`; a first-occurrence
list of the same elements models it — only its size is consumed). -/
def foundIndices (pending : List (String × PendingEntry)) : List Int :=
  pending.foldl
    (fun s kv =>
      let stored_index := kv.2.task.subtask_index.getD (-1)
      if stored_index ≥ 0 then (if s.contains stored_index then s else s ++ [stored_index])
      else s)
    ([] : List Int)

/-- The inbound response message consumed by `_handle_agent_response`;
`user_topic` is optional because the code reads it with a default. -/
structure ResponseData where
  from_agent : String
  task_result : String
  original_task : OrigTask
  user_topic : Option String
deriving Repr, DecidableEq, Inhabited

/-- `_handle_agent_response` (lines 120-207): record the response in the
pending-response index, run the ad-hoc completion check and the timeout
sweep, then declare index-based completion when the set of distinct
non-negative subtask indices across the whole pending index reaches
`total_subtasks` (the completion scan at lines 185-191 does not filter by
task) and invoke `_synthesize_responses`.  The `completed_responses`
variable of lines 174-181 is computed but never used, so it is omitted. -/
def handleAgentResponse (gc : String → Option String) (st : AgentState)
    (rd : ResponseData) (current_time : Int) : AgentState × List Event :=
  let from_agent := rd.from_agent
  let user_topic := rd.user_topic.getD "user_session:main"
  let task_description := rd.original_task.task.getD ""
  let task_key := task_description ++ "_" ++ toString (rd.original_task.subtask_index.getD 0)
  let pending' := insertA st.pending_responses task_key
    { from_agent := from_agent, result := rd.task_result,
      task := rd.original_task, user_topic := user_topic }
  let st1 : AgentState := { st with pending_responses := pending' }
  let (st2, ev1) := checkCollaborationCompletion gc st1 from_agent rd.task_result
    rd.original_task user_topic
  let (st3, ev2) := cleanupTimedOutCollaborations gc st2 current_time
  let total_subtasks := rd.original_task.total_subtasks.getD 1
  let ev3 := if total_subtasks > 1 then [Event.agentCompletedTask user_topic from_agent] else []
  let found_indices := foundIndices st3.pending_responses
  let all_subtasks_complete : Bool := (found_indices.length : Int) ≥ total_subtasks
  if all_subtasks_complete then
    let original_query := chooseOriginalQuery st3.pending_responses task_description
    let (st4, ev4) := synthesizeResponses gc st3 original_query
    (st4, ev1 ++ ev2 ++ ev3 ++ ev4)
  else
    (st3, ev1 ++ ev2 ++ ev3)

/-! ### Mention extraction (`src/orchestrator/app/routing.py`, lines 10-66)

`extract_mentions` uses the regex `(?<!\w)@(\w+)(?!\.)` with `re.findall`,
then validates candidates against the registered agent names and removes the
accepted mentions with `re.sub` (case-insensitively).  The two regex passes
are embedded as explicit left-to-right scanners with the exact
lookbehind/greedy/backtrack/lookahead behaviour of the Python `re` engine:
`\w+` is greedy but gives back one character when the following character is
a literal dot (making the lookahead succeed on the shortened capture). -/

/-- Python regex `\w` on a character. -/
def isWordChar (c : Char) : Bool := c.isAlphanum || c == '_'

/-- The negative lookbehind `(?<!\w)`: the character before the current
position (`none` at the start of the string). -/
def prevIsWord : Option Char → Bool
  | some c => isWordChar c
  | none => false

/-- `re.findall(r'(?<!\w)@(\w+)(?!\.)', message)`: scan left to right; at
each `@` not preceded by a word character take the maximal `\w+` run; if the
next character is a dot, back off one character (regex backtracking); a
one-character run followed by a dot cannot match.  The fuel argument equals
the length of the remaining text at the first call and never runs out. -/
def scanMentionsAux : Nat → Option Char → List Char → List (List Char)
  | 0, _, _ => []
  | _ + 1, _, [] => []
  | fuel + 1, prev, c :: rest =>
    if c == '@' && !prevIsWord prev then
      let run := rest.takeWhile isWordChar
      let after := rest.drop run.length
      let cap := if after.head? == some '.' then run.dropLast else run
      if cap.isEmpty then scanMentionsAux fuel (some c) rest
      else cap :: scanMentionsAux fuel (cap.getLastD ' ') (rest.drop cap.length)
    else scanMentionsAux fuel (some c) rest

/-- Lines 50-57: keep the lowercase form of each first-seen candidate that
names a registered agent. -/
def validateMentions (raw_matches : List String) (registered_agents : List String) :
    List String :=
  raw_matches.foldl
    (fun agent_names name =>
      let name_lower := pyToLower name
      if !agent_names.contains name_lower && registered_agents.contains name_lower
      then agent_names ++ [name_lower]
      else agent_names)
    []

/-- Specification-side (from the claim's words "first-seen-ordered,
de-duplicated"): keep each element's first occurrence, tracking the
elements already seen. -/
def dedupFirstAux : List String → List String → List String
  | [], _ => []
  | x :: xs, seen =>
    if x ∈ seen then dedupFirstAux xs seen else x :: dedupFirstAux xs (x :: seen)

/-- Specification-side first-occurrence de-duplication, used to state the
amended claim and compared against the source's validation loop. -/
def dedupFirst (l : List String) : List String :=
  dedupFirstAux l []

/-- One alternative of `re.sub`'s pattern
`(?<!\w)@(?:name1|name2|...)(?!\.)` with `re.IGNORECASE`: the first name (in
list order) matching case-insensitively at this position and not followed by
a literal dot; returns the matched length. -/
def matchValidName (agent_names : List String) (rest : List Char) : Option Nat :=
  agent_names.findSome? (fun name =>
    let nd := name.data
    if ((rest.take nd.length).map Char.toLower == nd.map Char.toLower)
        && ((rest.drop nd.length).head? != some '.')
    then some nd.length
    else none)

/-- The `re.sub(valid_pattern, '', message, flags=re.IGNORECASE)` pass of
line 63: copy characters, deleting each non-overlapping match of
`@<valid-name>` whose `@` is not preceded by a word character and whose name
is not followed by a dot. -/
def subMentionsAux (agent_names : List String) :
    Nat → Option Char → List Char → List Char
  | 0, _, cs => cs
  | _ + 1, _, [] => []
  | fuel + 1, prev, c :: rest =>
    if c == '@' && !prevIsWord prev then
      match matchValidName agent_names rest with
      | some n => subMentionsAux agent_names fuel ((rest.take n).getLastD '@') (rest.drop n)
      | none => c :: subMentionsAux agent_names fuel (some c) rest
    else c :: subMentionsAux agent_names fuel (some c) rest

/-- `extract_mentions(message)` (lines 10-66).  The registry snapshot (the
names of all agents in the database, lowercased at line 43) is passed as
`registryNames`. -/
def extract_mentions (message : String) (registryNames : List String) :
    List String × String :=
  let raw_matches := (scanMentionsAux message.data.length none message.data).map
    List.asString
  if !raw_matches.isEmpty then
    let registered_agents := registryNames.map pyToLower
    let agent_names := validateMentions raw_matches registered_agents
    if !agent_names.isEmpty then
      let cleaned_message :=
        (subMentionsAux agent_names message.data.length none message.data).asString
      (agent_names, pyStrip cleaned_message)
    else ([], message)
  else ([], message)

/-! ### Task-decomposition fallbacks (`src/agentkit/agentkit/base.py`)

`decompose_task` has two distinct deterministic fallbacks: one taken when
the completion service returned text that fails to parse as JSON
(lines 270-323, word-count thresholds 8/15 plus complex keywords) and one
taken when the completion service returned no content at all (lines 324-373,
word-count thresholds 10/20, no keyword check).  Both consult the discovered
agents for agent-type hints; the discovery refresh is parameterized away as
the post-refresh list `available_agents` together with the capability-name
map `capOf` (modelling `_get_agent_capability_name`). -/

/-- A decomposition subtask dictionary. -/
structure Subtask where
  task : String
  agent_type : String
  priority : Int
  dependencies : List Int
deriving Repr, DecidableEq, Inhabited

/-- The complex-keyword list of line 276. -/
def complex_keywords : List String :=
  ["research", "analyze", "strategy", "future", "development",
   "comprehensive", "explore", "investigate"]

/-- Python substring test `sub in hay`. -/
def pyContains (hay sub : String) : Bool :=
  hay.data.tails.any (fun t => sub.data.isPrefixOf t)

/-- Count the maximal non-whitespace runs of a character list; the Bool
records whether the previous character was inside a word. -/
def wordCountAux : List Char → Bool → Nat
  | [], _ => 0
  | c :: cs, inWord =>
    if c.isWhitespace then wordCountAux cs false
    else (if inWord then 0 else 1) + wordCountAux cs true

/-- `len(complex_task.split())`: number of maximal non-whitespace runs. -/
def wordCount (s : String) : Nat :=
  wordCountAux s.data false

/-- Line 277: `any(keyword in task_lower for keyword in complex_keywords)`. -/
def hasComplexKeywords (complex_task : String) : Bool :=
  complex_keywords.any (fun keyword => pyContains (pyToLower complex_task) keyword)

/-- Fallback of lines 271-323 (completion text present but not JSON). -/
def decomposeFallbackNonJson (complex_task : String)
    (available_agents : List String) (capOf : String → String) : List Subtask :=
  let task_length := wordCount complex_task
  let has_complex_keywords := hasComplexKeywords complex_task
  if task_length < 8 && !has_complex_keywords then
    [{ task := complex_task, agent_type := "general", priority := 5, dependencies := [] }]
  else if task_length < 15 || has_complex_keywords then
    let agent1_cap := if available_agents.length ≥ 2 then capOf (available_agents.getD 0 "") else "research"
    let agent2_cap := if available_agents.length ≥ 2 then capOf (available_agents.getD 1 "") else "creative"
    [{ task := "Research and gather information about: " ++ complex_task.take 50 ++ "...",
       agent_type := agent1_cap, priority := 5, dependencies := [] },
     { task := "Create comprehensive response for: " ++ complex_task.take 50 ++ "...",
       agent_type := agent2_cap, priority := 4, dependencies := [0] }]
  else
    let agent1_cap :=
      if available_agents.length ≥ 3 then capOf (available_agents.getD 0 "")
      else if available_agents.length ≥ 2 then capOf (available_agents.getD 0 "")
      else "research"
    let agent2_cap :=
      if available_agents.length ≥ 3 then capOf (available_agents.getD 1 "")
      else if available_agents.length ≥ 2 then capOf (available_agents.getD 1 "")
      else "creative"
    let agent3_cap :=
      if available_agents.length ≥ 3 then capOf (available_agents.getD 2 "")
      else if available_agents.length ≥ 2 then capOf (available_agents.getD 1 "")
      else "review"
    [{ task := "Research and gather information about: " ++ complex_task.take 50 ++ "...",
       agent_type := agent1_cap, priority := 5, dependencies := [] },
     { task := "Create content based on: " ++ complex_task.take 50 ++ "...",
       agent_type := agent2_cap, priority := 4, dependencies := [0] },
     { task := "Review and improve the content for: " ++ complex_task.take 50 ++ "...",
       agent_type := agent3_cap, priority := 3, dependencies := [1] }]

/-- Fallback of lines 324-373 (completion service returned no content). -/
def decomposeFallbackNoContent (complex_task : String)
    (available_agents : List String) (capOf : String → String) : List Subtask :=
  let task_length := wordCount complex_task
  if task_length < 10 then
    [{ task := "Handle this request: " ++ complex_task,
       agent_type := "general", priority := 5, dependencies := [] }]
  else if task_length < 20 then
    let agent1_cap := if available_agents.length ≥ 2 then capOf (available_agents.getD 0 "") else "research"
    let agent2_cap := if available_agents.length ≥ 2 then capOf (available_agents.getD 1 "") else "creative"
    [{ task := "Research and gather information about: " ++ complex_task.take 50 ++ "...",
       agent_type := agent1_cap, priority := 5, dependencies := [] },
     { task := "Create comprehensive response for: " ++ complex_task.take 50 ++ "...",
       agent_type := agent2_cap, priority := 4, dependencies := [0] }]
  else
    let agent1_cap :=
      if available_agents.length ≥ 3 then capOf (available_agents.getD 0 "")
      else if available_agents.length ≥ 2 then capOf (available_agents.getD 0 "")
      else "research"
    let agent2_cap :=
      if available_agents.length ≥ 3 then capOf (available_agents.getD 1 "")
      else if available_agents.length ≥ 2 then capOf (available_agents.getD 1 "")
      else "creative"
    let agent3_cap :=
      if available_agents.length ≥ 3 then capOf (available_agents.getD 2 "")
      else if available_agents.length ≥ 2 then capOf (available_agents.getD 1 "")
      else "review"
    [{ task := "Research and gather information about: " ++ complex_task.take 50 ++ "...",
       agent_type := agent1_cap, priority := 5, dependencies := [] },
     { task := "Create content based on: " ++ complex_task.take 50 ++ "...",
       agent_type := agent2_cap, priority := 4, dependencies := [0] },
     { task := "Review and improve the content for: " ++ complex_task.take 50 ++ "...",
       agent_type := agent3_cap, priority := 3, dependencies := [1] }]

/-! ### Duplicate-message suppression (`src/agents/worker_agent.py`, lines 660-682)

`_handle_natural_conversation` keys its dedup cache by
`hash((from_agent + message + context).strip().lower())`; the hash is
modelled injectively by the hashed string itself.  `time.time()` instants
are integers.  The returned Bool is `true` when processing continues past
the dedup gate and `false` when the message is suppressed. -/

/-- The dedup-cache key of line 661 (modulo the final `hash(...)`). -/
def dedupKey (from_agent message context : String) : String :=
  pyToLower (pyStrip (from_agent ++ message ++ context))

/-- Remove the first cache entry holding the minimal timestamp — Python's
`min(keys, key=dict.get)` followed by `del` (ties: `min` keeps the first
key attaining the minimum in insertion order). -/
def removeFirstWithTime : List (String × Int) → Int → List (String × Int)
  | [], _ => []
  | kv :: rest, m => if kv.2 == m then rest else kv :: removeFirstWithTime rest m

/-- Lines 679-682: evict the least-recently-seen entry when over capacity. -/
def evictOldest (recent : List (String × Int)) : List (String × Int) :=
  match (recent.map (fun kv => kv.2)).min? with
  | none => recent
  | some m => removeFirstWithTime recent m

/-- Lines 660-682 as a step function on the `_recent_messages` cache: look
the key up; a hit younger than 5 time units suppresses the message without
touching the cache; otherwise record the current time under the key and
evict the oldest entry if the cache now exceeds 50 entries. -/
def dedupStep (recent : List (String × Int)) (key : String)
    (current_time : Int) : Bool × List (String × Int) :=
  let track :=
    let updated := insertA recent key current_time
    if updated.length > 50 then evictOldest updated else updated
  match lookupA recent key with
  | some last_seen =>
    if current_time - last_seen < 5 then (false, recent) else (true, track)
  | none => (true, track)

/-! ### Startup reconciliation (`src/orchestrator/app/agent_lifecycle.py`, lines 80-115)

`cleanup_stale_agents` walks every persisted record with status `running`;
the zero-signal probe `os.kill(pid, 0)` is modelled by the predicate
`live` (`live p = true` iff the probe does not raise).  Python's
`if agent.pid:` truthiness means a recorded pid of `0` is treated the same
as no pid at all. -/

/-- One persisted agent record (the fields this function touches). -/
structure DbAgent where
  name : String
  status : String
  pid : Option Int
deriving Repr, DecidableEq, Inhabited

/-- `cleanup_stale_agents` (lines 80-115). -/
def cleanupStaleAgents (live : Int → Bool) (agents : List DbAgent) : List DbAgent :=
  agents.map (fun agent =>
    if agent.status == "running" then
      match agent.pid with
      | some p =>
        if p != 0 then
          if live p then agent else { agent with status := "stopped", pid := none }
        else { agent with status := "stopped" }
      | none => { agent with status := "stopped" }
    else agent)

/-! ### Round-robin agent selection (`src/agentkit/agentkit/discovery.py`, lines 135-163)

`find_agent_for_task` refreshes `available_agents` via the orchestrator only
when the cached dict is empty (the refresh result is the parameter
`discovered`), then indexes the agent list with the persisted
`_last_assigned_agent_index` **before** wrapping it modulo the list length;
an out-of-range index raises `IndexError`, modelled as `Except.error`. -/

/-- The discovery state this method touches: the cached agent names (dict
keys in insertion order) and the persisted round-robin index (absent until
first use — the `hasattr` check of line 153). -/
structure DiscoveryState where
  available_agents : List String
  last_assigned_agent_index : Option Nat
deriving Repr, DecidableEq, Inhabited

/-- `find_agent_for_task` (lines 135-163). -/
def findAgentForTask (st : DiscoveryState) (discovered : List String) :
    Except String (Option String × DiscoveryState) :=
  let agents0 := if st.available_agents.isEmpty then discovered else st.available_agents
  if agents0.isEmpty then
    Except.ok (none, { st with available_agents := agents0 })
  else
    let idx := st.last_assigned_agent_index.getD 0
    if h : idx < agents0.length then
      Except.ok (some (agents0.get ⟨idx, h⟩),
        { available_agents := agents0,
          last_assigned_agent_index := some ((idx + 1) % agents0.length) })
    else
      Except.error "IndexError: list index out of range"

/-! ### Concrete fixtures used when evaluating the model on sample inputs -/

/-- A pending entry recorded for original query `other`. -/
def sampleEntryOther : PendingEntry :=
  { from_agent := "a", result := "ra",
    task := { task := some "t", subtask_index := some 0,
              total_subtasks := some 1, original_query := some "other" },
    user_topic := "u" }

/-- A coordinator state holding exactly one pending response for query
`other` and no active collaborations. -/
def sampleStateOther : AgentState :=
  { pending_responses := [("t_0", sampleEntryOther)],
    active_collaborations := [] }

/-- A pending entry for subtask 0 of a task `alpha` declaring 2 subtasks. -/
def sampleEntryAlpha : PendingEntry :=
  { from_agent := "agent1", result := "r1",
    task := { task := some "alpha", subtask_index := some 0,
              total_subtasks := some 2, original_query := some "alphaQ" },
    user_topic := "topicU" }

/-- A coordinator state holding only `alpha`'s subtask-0 response. -/
def sampleStateAlpha : AgentState :=
  { pending_responses := [("alpha_0", sampleEntryAlpha)],
    active_collaborations := [] }

/-- An inbound response for subtask 1 of a *different* task `beta`, which
also declares 2 subtasks. -/
def sampleResponseBeta : ResponseData :=
  { from_agent := "agent2", task_result := "r2",
    original_task := { task := some "beta", subtask_index := some 1,
                       total_subtasks := some 2, original_query := some "betaQ" },
    user_topic := some "topicU" }

/-- The pending entry that recording `sampleResponseBeta` produces. -/
def sampleEntryBeta : PendingEntry :=
  { from_agent := "agent2", result := "r2",
    task := sampleResponseBeta.original_task, user_topic := "topicU" }

/-- The pending index after `beta`'s subtask-1 response joins `alpha`'s
subtask-0 response. -/
def sampleStateBoth : AgentState :=
  { pending_responses := [("alpha_0", sampleEntryAlpha), ("beta_1", sampleEntryBeta)],
    active_collaborations := [] }

/-! ## Helper lemmas about the dict embedding -/

theorem lookupA_insertA_self {α : Type} (l : List (String × α)) (k : String) (v : α) :
    lookupA (insertA l k v) k = some v := by
  induction l with
  | nil => simp [insertA, lookupA, List.find?]
  | cons kv rest ih =>
    cases h : kv.1 == k with
    | true => simp [insertA, h, lookupA, List.find?]
    | false =>
      simp only [insertA, h, Bool.false_eq_true, if_false]
      simp only [lookupA, List.find?] at ih ⊢
      rw [h]
      exact ih

theorem lookupA_eraseA_self {α : Type} (l : List (String × α)) (k : String) :
    lookupA (eraseA l k) k = none := by
  induction l with
  | nil => rfl
  | cons kv rest ih =>
    cases h : kv.1 == k with
    | true => simpa [eraseA, List.filter, bne, h] using ih
    | false =>
      simp only [eraseA, List.filter, bne, h, Bool.not_false]
      simp only [lookupA, List.find?, h] at ih ⊢
      exact ih

theorem mem_of_lookupA {α : Type} {l : List (String × α)} {k : String} {v : α}
    (h : lookupA l k = some v) : (k, v) ∈ l := by
  unfold lookupA at h
  cases hf : l.find? (fun kv => kv.1 == k) with
  | none => rw [hf] at h; cases h
  | some kv =>
    rw [hf] at h
    have hm := List.mem_of_find?_eq_some hf
    have hp := List.find?_some hf
    simp only [Option.map] at h
    obtain ⟨k1, v1⟩ := kv
    simp only [beq_iff_eq] at hp
    cases h
    cases hp
    exact hm

theorem lookupA_eq_none_of_not_mem {α : Type} {l : List (String × α)} {k : String}
    (h : k ∉ l.map Prod.fst) : lookupA l k = none := by
  unfold lookupA
  have hf : l.find? (fun kv => kv.1 == k) = none := by
    rw [List.find?_eq_none]
    intro kv hkv
    simp only [beq_iff_eq]
    intro hk
    exact h (List.mem_map.mpr ⟨kv, hkv, hk⟩)
  rw [hf]
  rfl

theorem lookupA_filter_not {α : Type} {l : List (String × α)} {k : String} {v : α}
    (p : String × α → Bool)
    (hnd : (l.map Prod.fst).Nodup) (hl : lookupA l k = some v) (hp : p (k, v) = true) :
    lookupA (l.filter (fun kv => !p kv)) k = none := by
  induction l with
  | nil => cases hl
  | cons a rest ih =>
    simp only [List.map_cons, List.nodup_cons] at hnd
    cases ha : a.1 == k with
    | false =>
      have hrest : lookupA rest k = some v := by
        simp only [lookupA, List.find?, ha] at hl ⊢
        exact hl
      have := ih hnd.2 hrest
      cases hq : (!p a) with
      | false => simpa [List.filter, hq] using this
      | true =>
        simp only [List.filter, hq]
        simp only [lookupA, List.find?, ha] at this ⊢
        exact this
    | true =>
      have hak : a.1 = k := by simpa using ha
      have hav : a.2 = v := by
        simp only [lookupA, List.find?, ha] at hl
        simpa using hl
      have hpa : p a = true := by
        obtain ⟨a1, a2⟩ := a
        cases hak
        cases hav
        exact hp
      simp only [List.filter, hpa, Bool.not_true]
      have hnotmem : k ∉ (rest.filter (fun kv => !p kv)).map Prod.fst := by
        intro hmem
        apply hnd.1
        obtain ⟨kv, hkv, hkv1⟩ := List.mem_map.mp hmem
        exact List.mem_map.mpr ⟨kv, List.mem_of_mem_filter hkv, hkv1.trans hak.symm⟩
      exact lookupA_eq_none_of_not_mem hnotmem

/-! ## Claim theorems -/

/-- Claim C1: for every active ad-hoc collaboration session, completion is
declared exactly when the expected agent names become a subset of the
responding agent names (set containment, not count); at that moment the
session is removed from the active-collaboration map; a response arriving
for an already-removed collaboration key is silently dropped, leaving the
state unchanged and emitting no message. -/
theorem check_collaboration_completion_spec
    (gc : String → Option String) (st : AgentState)
    (from_agent task_result : String) (ot : OrigTask) (user_topic : String) :
    (lookupA st.active_collaborations
        ("collaboration_" ++ ot.task.getD "" ++ "_" ++ user_topic) = none →
      checkCollaborationCompletion gc st from_agent task_result ot user_topic = (st, [])) ∧
    (∀ c, lookupA st.active_collaborations
        ("collaboration_" ++ ot.task.getD "" ++ "_" ++ user_topic) = some c →
      ((∀ a ∈ c.expected_agents,
          a ∈ (c.received_responses.map CollabResponse.from_agent) ++ [from_agent]) →
        lookupA (checkCollaborationCompletion gc st from_agent task_result ot
            user_topic).1.active_collaborations
          ("collaboration_" ++ ot.task.getD "" ++ "_" ++ user_topic) = none) ∧
      ((¬ ∀ a ∈ c.expected_agents,
          a ∈ (c.received_responses.map CollabResponse.from_agent) ++ [from_agent]) →
        lookupA (checkCollaborationCompletion gc st from_agent task_result ot
            user_topic).1.active_collaborations
          ("collaboration_" ++ ot.task.getD "" ++ "_" ++ user_topic) =
          some { c with received_responses := c.received_responses ++
                  [{ from_agent := from_agent, result := task_result, task := ot }] } ∧
        (checkCollaborationCompletion gc st from_agent task_result ot user_topic).2 =
          [Event.stillWaiting user_topic
            ((c.expected_agents.filter (fun a =>
              !((c.received_responses.map CollabResponse.from_agent)
                  ++ [from_agent]).contains a)).dedup)])) := by
  constructor
  · intro h
    simp only [checkCollaborationCompletion, h]
  · intro c hc
    constructor
    · intro hsub
      simp only [checkCollaborationCompletion, hc]
      split
      · split
        · exact lookupA_eraseA_self _ _
        · exact lookupA_eraseA_self _ _
      · next hcond =>
        exfalso
        rw [Bool.not_eq_true, List.all_eq_false] at hcond
        obtain ⟨a, ha, hna⟩ := hcond
        apply hna
        have := hsub a ha
        simp only [List.map_append, List.map_cons, List.map_nil] at this ⊢
        simpa using this
    · intro hnsub
      simp only [checkCollaborationCompletion, hc]
      split
      · next hcond =>
        exfalso
        apply hnsub
        rw [List.all_eq_true] at hcond
        intro a ha
        have := hcond a ha
        simp only [List.map_append, List.map_cons, List.map_nil] at this ⊢
        simpa using this
      · constructor
        · exact lookupA_insertA_self _ _ _
        · simp [List.map_append]

/-- Witness for C1: a concrete state in which the arriving response
completes the collaboration (subset reached) and the session is removed. -/
theorem check_collaboration_completion_spec_witness :
    lookupA (checkCollaborationCompletion (fun _ => none)
        { pending_responses := [],
          active_collaborations := [("collaboration_t_u",
            { task := "t", expected_agents := ["a"], received_responses := [],
              user_topic := "u", start_time := 0, timeout := 30 })] }
        "a" "res" { task := some "t", subtask_index := some 0,
                    total_subtasks := some 1, original_query := none }
        "u").1.active_collaborations "collaboration_t_u" = none :=
  ((check_collaboration_completion_spec (fun _ => none)
      { pending_responses := [],
        active_collaborations := [("collaboration_t_u",
          { task := "t", expected_agents := ["a"], received_responses := [],
            user_topic := "u", start_time := 0, timeout := 30 })] }
      "a" "res" { task := some "t", subtask_index := some 0,
                  total_subtasks := some 1, original_query := none }
      "u").2 { task := "t", expected_agents := ["a"], received_responses := [],
               user_topic := "u", start_time := 0, timeout := 30 }
    (by decide)).1 (by decide)

/-- Claim C2: every active ad-hoc collaboration whose age exceeds the fixed
30-time-unit timeout is removed by the next sweep unconditionally, and the
user notice depends on the number of responses received before timeout:
zero responses yield the timed-out-with-no-responses notice, exactly one
response is passed through verbatim, and two or more responses are
synthesized into one answer. -/
theorem cleanup_timed_out_collaborations_spec
    (gc : String → Option String) (st : AgentState) (current_time : Int)
    (key : String) (c : Collab)
    (hnd : (st.active_collaborations.map Prod.fst).Nodup)
    (hc : lookupA st.active_collaborations key = some c)
    (hti : c.timeout = 30) (hage : current_time - c.start_time > 30) :
    lookupA (cleanupTimedOutCollaborations gc st
      current_time).1.active_collaborations key = none ∧
    (c.received_responses = [] →
      Event.timeoutNoResponses c.user_topic ∈
        (cleanupTimedOutCollaborations gc st current_time).2) ∧
    (∀ r, c.received_responses = [r] →
      Event.timeoutSingleResponse c.user_topic r.from_agent r.result ∈
        (cleanupTimedOutCollaborations gc st current_time).2) ∧
    (2 ≤ c.received_responses.length →
      Event.timeoutProcessing c.user_topic c.received_responses.length ∈
        (cleanupTimedOutCollaborations gc st current_time).2 ∧
      Event.synthesizingCollab c.user_topic c.received_responses.length ∈
        (cleanupTimedOutCollaborations gc st current_time).2 ∧
      ∀ ans, gc (mkCollabPrompt c) = some ans →
        Event.finalAnswer c.user_topic ans ∈
          (cleanupTimedOutCollaborations gc st current_time).2) := by
  have htimed : (decide (current_time - c.start_time > c.timeout)) = true := by
    rw [hti]
    exact decide_eq_true hage
  have hmem : (key, c) ∈ st.active_collaborations.filter
      (fun kv => decide (current_time - kv.2.start_time > kv.2.timeout)) :=
    List.mem_filter.mpr ⟨mem_of_lookupA hc, htimed⟩
  have hmemEv : ∀ e, e ∈ (match c.received_responses with
      | [] => [Event.timeoutNoResponses c.user_topic]
      | [r] => [Event.timeoutProcessing c.user_topic 1,
                Event.timeoutSingleResponse c.user_topic r.from_agent r.result]
      | rs => Event.timeoutProcessing c.user_topic rs.length ::
                synthesizeCollabResponses gc c) →
      e ∈ (cleanupTimedOutCollaborations gc st current_time).2 := by
    intro e he
    simp only [cleanupTimedOutCollaborations]
    rw [List.mem_flatMap]
    exact ⟨(key, c), hmem, he⟩
  refine ⟨?_, ?_, ?_, ?_⟩
  · simp only [cleanupTimedOutCollaborations]
    exact lookupA_filter_not
      (fun kv => decide (current_time - kv.2.start_time > kv.2.timeout)) hnd hc htimed
  · intro h0
    apply hmemEv
    rw [h0]
    simp
  · intro r h1
    apply hmemEv
    rw [h1]
    simp
  · intro h2
    cases hr : c.received_responses with
    | nil => rw [hr] at h2; simp at h2
    | cons r1 tl =>
      cases hrt : tl with
      | nil => rw [hr, hrt] at h2; simp at h2
      | cons r2 tl2 =>
        have hlen : ¬ (c.received_responses.length ≤ 1) := by
          rw [hr, hrt]
          simp only [List.length_cons]
          omega
        have hsynth : synthesizeCollabResponses gc c =
            Event.synthesizingCollab c.user_topic c.received_responses.length ::
              (match gc (mkCollabPrompt c) with
               | some synthesis_response =>
                   [Event.finalAnswer c.user_topic synthesis_response]
               | none => []) := by
          simp only [synthesizeCollabResponses]
          rw [if_neg hlen]
        have hstep : ∀ e,
            e ∈ Event.timeoutProcessing c.user_topic c.received_responses.length ::
              synthesizeCollabResponses gc c →
            e ∈ (cleanupTimedOutCollaborations gc st current_time).2 := by
          intro e he
          apply hmemEv
          rw [hr, hrt]
          rw [hr, hrt] at he
          exact he
        have hlen2 : (r1 :: r2 :: tl2 : List CollabResponse).length =
            c.received_responses.length := by rw [hr, hrt]
        refine ⟨?_, ?_, ?_⟩
        · rw [hlen2]
          exact hstep _ (List.mem_cons_self _ _)
        · rw [hlen2]
          exact hstep _ (by
            rw [hsynth]
            exact List.mem_cons_of_mem _ (List.mem_cons_self _ _))
        · intro ans hans
          apply hstep
          rw [hsynth, hans]
          simp

/-- Witness for C2: a collaboration aged 31 > 30 with exactly one received
response is swept, and the single response is passed through verbatim. -/
theorem cleanup_timed_out_collaborations_spec_witness :
    Event.timeoutSingleResponse "u" "a" "ra" ∈
      (cleanupTimedOutCollaborations (fun _ => none)
        { pending_responses := [],
          active_collaborations := [("k",
            { task := "t", expected_agents := ["a", "b"],
              received_responses := [{ from_agent := "a", result := "ra",
                                       task := { task := none, subtask_index := none,
                                                 total_subtasks := none, original_query := none } }],
              user_topic := "u", start_time := 0, timeout := 30 })] }
        31).2 :=
  (cleanup_timed_out_collaborations_spec (fun _ => none)
      { pending_responses := [],
        active_collaborations := [("k",
          { task := "t", expected_agents := ["a", "b"],
            received_responses := [{ from_agent := "a", result := "ra",
                                     task := { task := none, subtask_index := none,
                                               total_subtasks := none, original_query := none } }],
            user_topic := "u", start_time := 0, timeout := 30 })] }
      31 "k"
      { task := "t", expected_agents := ["a", "b"],
        received_responses := [{ from_agent := "a", result := "ra",
                                 task := { task := none, subtask_index := none,
                                           total_subtasks := none, original_query := none } }],
        user_topic := "u", start_time := 0, timeout := 30 }
      (by decide) (by decide) rfl (by decide)).2.2.1
    { from_agent := "a", result := "ra",
      task := { task := none, subtask_index := none,
                total_subtasks := none, original_query := none } }
    rfl

/-- Claim C6 (code bug at `_synthesize_collaboration_responses`, lines
430-437): when the completion service returns no content while synthesizing
an ad-hoc collaboration with two received responses, the only message
emitted is the synthesis preamble — no explanatory
could-not-combine message is published, contradicting the requirement that
a failed synthesis never ends without an explanatory terminal message
(the index-based path at lines 319-328 does emit one). -/
theorem synthesize_collab_responses_silent_on_no_content :
    synthesizeCollabResponses (fun _ => none)
      { task := "t", expected_agents := ["a", "b"],
        received_responses :=
          [{ from_agent := "a", result := "ra",
             task := { task := none, subtask_index := none,
                       total_subtasks := none, original_query := none } },
           { from_agent := "b", result := "rb",
             task := { task := none, subtask_index := none,
                       total_subtasks := none, original_query := none } }],
        user_topic := "u", start_time := 0, timeout := 30 } =
      [Event.synthesizingCollab "u" 2] := by
  rfl

/-- Claim C7: invoking index-based synthesis for an original query with zero
contributing responses in the pending-response index is a no-op: no message
is emitted and the state (in particular the pending-response index) is
unchanged. -/
theorem synthesize_responses_zero_contributions_noop
    (gc : String → Option String) (st : AgentState) (original_query : String)
    (h : ∀ kv ∈ st.pending_responses,
      kv.2.task.original_query.getD "" ≠ original_query) :
    synthesizeResponses gc st original_query = (st, []) := by
  have hfilter : st.pending_responses.filter
      (fun kv => kv.2.task.original_query.getD "" == original_query) = [] := by
    rw [List.filter_eq_nil_iff]
    intro kv hkv
    simp only [beq_iff_eq]
    exact h kv hkv
  simp only [synthesizeResponses, hfilter]
  rfl

/-- Witness for C7: a pending index holding an unrelated query entry is left
untouched by a synthesis call for a query with no contributions. -/
theorem synthesize_responses_zero_contributions_noop_witness :
    synthesizeResponses (fun _ => some "out") sampleStateOther "q" =
      (sampleStateOther, []) :=
  synthesize_responses_zero_contributions_noop (fun _ => some "out")
    sampleStateOther "q" (by decide)

/-! ## Lemmas for the index-based completion check -/

theorem checkCollaborationCompletion_pending
    (gc : String → Option String) (st : AgentState)
    (from_agent task_result : String) (ot : OrigTask) (user_topic : String) :
    (checkCollaborationCompletion gc st from_agent task_result ot
      user_topic).1.pending_responses = st.pending_responses := by
  simp only [checkCollaborationCompletion]
  split
  · rfl
  · split
    · split <;> rfl
    · rfl

theorem cleanupTimedOutCollaborations_pending
    (gc : String → Option String) (st : AgentState) (current_time : Int) :
    (cleanupTimedOutCollaborations gc st current_time).1.pending_responses =
      st.pending_responses := rfl

theorem indexStep_mem (s0 : List Int) (i x : Int) :
    (x ∈ if i ≥ 0 then (if s0.contains i then s0 else s0 ++ [i]) else s0) ↔
      x ∈ s0 ∨ (x = i ∧ 0 ≤ x) := by
  by_cases h0 : i ≥ 0
  · rw [if_pos h0]
    by_cases hc : s0.contains i = true
    · rw [if_pos hc]
      have hi : i ∈ s0 := by simpa using hc
      constructor
      · exact Or.inl
      · rintro (hx | ⟨rfl, _⟩)
        · exact hx
        · exact hi
    · rw [if_neg hc]
      simp only [List.mem_append, List.mem_singleton]
      constructor
      · rintro (hx | rfl)
        · exact Or.inl hx
        · exact Or.inr ⟨rfl, h0⟩
      · rintro (hx | ⟨rfl, _⟩)
        · exact Or.inl hx
        · exact Or.inr rfl
  · rw [if_neg h0]
    constructor
    · exact Or.inl
    · rintro (hx | ⟨rfl, hx0⟩)
      · exact hx
      · exact absurd hx0 h0

theorem indexStep_nodup (s0 : List Int) (i : Int) (h : s0.Nodup) :
    (if i ≥ 0 then (if s0.contains i then s0 else s0 ++ [i]) else s0).Nodup := by
  by_cases h0 : i ≥ 0
  · rw [if_pos h0]
    by_cases hc : s0.contains i = true
    · rwa [if_pos hc]
    · rw [if_neg hc]
      have hi : i ∉ s0 := by simpa using hc
      simp [List.nodup_append, h, hi]
  · rwa [if_neg h0]

theorem foundIndices_aux_mem (pending : List (String × PendingEntry))
    (s0 : List Int) (x : Int) :
    (x ∈ pending.foldl
      (fun s kv =>
        let stored_index := kv.2.task.subtask_index.getD (-1)
        if stored_index ≥ 0 then
          (if s.contains stored_index then s else s ++ [stored_index])
        else s)
      s0) ↔
    x ∈ s0 ∨ (x ∈ pending.map (fun kv => kv.2.task.subtask_index.getD (-1)) ∧ 0 ≤ x) := by
  induction pending generalizing s0 with
  | nil => simp
  | cons kv rest ih =>
    simp only [List.foldl_cons, List.map_cons, List.mem_cons]
    rw [ih]
    rw [indexStep_mem]
    constructor
    · rintro ((hx | hxi) | ⟨hx, hx0⟩)
      · exact Or.inl hx
      · exact Or.inr ⟨Or.inl hxi.1, hxi.2⟩
      · exact Or.inr ⟨Or.inr hx, hx0⟩
    · rintro (hx | ⟨hx | hx, hx0⟩)
      · exact Or.inl (Or.inl hx)
      · exact Or.inl (Or.inr ⟨hx, hx0⟩)
      · exact Or.inr ⟨hx, hx0⟩

theorem foundIndices_aux_nodup (pending : List (String × PendingEntry))
    (s0 : List Int) (h : s0.Nodup) :
    (pending.foldl
      (fun s kv =>
        let stored_index := kv.2.task.subtask_index.getD (-1)
        if stored_index ≥ 0 then
          (if s.contains stored_index then s else s ++ [stored_index])
        else s)
      s0).Nodup := by
  induction pending generalizing s0 with
  | nil => exact h
  | cons kv rest ih =>
    simp only [List.foldl_cons]
    exact ih _ (indexStep_nodup s0 _ h)

theorem foundIndices_length (pending : List (String × PendingEntry)) :
    (foundIndices pending).length =
      (((pending.map (fun kv => kv.2.task.subtask_index.getD (-1))).filter
        (fun i => 0 ≤ i)).dedup).length := by
  have h1 : (foundIndices pending).Nodup :=
    foundIndices_aux_nodup pending [] List.nodup_nil
  have h2 : (((pending.map (fun kv => kv.2.task.subtask_index.getD (-1))).filter
      (fun i => 0 ≤ i)).dedup).Nodup := List.nodup_dedup _
  have hmem : ∀ x, x ∈ foundIndices pending ↔
      x ∈ ((pending.map (fun kv => kv.2.task.subtask_index.getD (-1))).filter
        (fun i => 0 ≤ i)).dedup := by
    intro x
    rw [foundIndices, foundIndices_aux_mem, List.mem_dedup, List.mem_filter]
    simp [And.comm]
  have hfin : (foundIndices pending).toFinset =
      (((pending.map (fun kv => kv.2.task.subtask_index.getD (-1))).filter
        (fun i => 0 ≤ i)).dedup).toFinset := by
    ext x
    simp only [List.mem_toFinset]
    exact hmem x
  calc (foundIndices pending).length
      = (foundIndices pending).toFinset.card := (List.toFinset_card_of_nodup h1).symm
    _ = (((pending.map (fun kv => kv.2.task.subtask_index.getD (-1))).filter
          (fun i => 0 ≤ i)).dedup).toFinset.card := by rw [hfin]
    _ = (((pending.map (fun kv => kv.2.task.subtask_index.getD (-1))).filter
          (fun i => 0 ≤ i)).dedup).length := List.toFinset_card_of_nodup h2

/-- Claim C3 counterexample: the completion scan of `_handle_agent_response`
(lines 185-191) does not restrict the distinct-subtask-index count to the
current task.  Here task `alpha` has recorded only its subtask 0 and task
`beta` only its subtask 1 (each declaring 2 subtasks), yet the arrival of
`beta`'s response finds two distinct indices overall and invokes synthesis
(the `synthesisStatus`/`couldNotSynthesize` messages below), although
neither task has reached its declared total — contradicting the claim that
responses belonging to a different task do not count. -/
theorem handle_agent_response_cross_task_counterexample :
    (handleAgentResponse (fun _ => none) sampleStateAlpha sampleResponseBeta 0).2 =
      [Event.agentCompletedTask "topicU" "agent2",
       Event.synthesisStatus "topicU" 1,
       Event.couldNotSynthesize "topicU"] := by decide

/-- Claim C3 (amended): each inbound result is recorded in the
pending-response index under the key `task text ++ "_" ++ subtask index`,
and synthesis is triggered exactly when the number of distinct non-negative
subtask indices across the *entire* pending-response index — responses of
other tasks included — reaches this response's declared `total_subtasks`;
the synthesized query is then the first recorded truthy `original_query`
in the index (not necessarily this task's). -/
theorem handle_agent_response_index_completion
    (gc : String → Option String) (st : AgentState) (rd : ResponseData)
    (current_time : Int)
    (user_topic task_description task_key : String) (entry : PendingEntry)
    (st1 st2 st3 : AgentState) (ev1 ev2 : List Event)
    (hut : user_topic = rd.user_topic.getD "user_session:main")
    (htd : task_description = rd.original_task.task.getD "")
    (hk : task_key = task_description ++ "_" ++
      toString (rd.original_task.subtask_index.getD 0))
    (hentry : entry = { from_agent := rd.from_agent, result := rd.task_result,
                        task := rd.original_task, user_topic := user_topic })
    (h1 : st1 = { st with
      pending_responses := insertA st.pending_responses task_key entry })
    (h2 : checkCollaborationCompletion gc st1 rd.from_agent rd.task_result
      rd.original_task user_topic = (st2, ev1))
    (h3 : cleanupTimedOutCollaborations gc st2 current_time = (st3, ev2)) :
    lookupA st1.pending_responses task_key = some entry ∧
    (((((st1.pending_responses.map
          (fun kv => kv.2.task.subtask_index.getD (-1))).filter
            (fun i => 0 ≤ i)).dedup).length : Int) ≥
        rd.original_task.total_subtasks.getD 1 →
      handleAgentResponse gc st rd current_time =
        ((synthesizeResponses gc st3
            (chooseOriginalQuery st3.pending_responses task_description)).1,
         ev1 ++ ev2 ++
           (if rd.original_task.total_subtasks.getD 1 > 1
            then [Event.agentCompletedTask user_topic rd.from_agent] else []) ++
           (synthesizeResponses gc st3
             (chooseOriginalQuery st3.pending_responses task_description)).2)) ∧
    (¬ (((((st1.pending_responses.map
          (fun kv => kv.2.task.subtask_index.getD (-1))).filter
            (fun i => 0 ≤ i)).dedup).length : Int) ≥
        rd.original_task.total_subtasks.getD 1) →
      handleAgentResponse gc st rd current_time =
        (st3, ev1 ++ ev2 ++
          (if rd.original_task.total_subtasks.getD 1 > 1
           then [Event.agentCompletedTask user_topic rd.from_agent] else []))) := by
  subst hut htd hk hentry h1
  have hp2 : st2.pending_responses =
      insertA st.pending_responses
        (rd.original_task.task.getD "" ++ "_" ++
          toString (rd.original_task.subtask_index.getD 0))
        { from_agent := rd.from_agent, result := rd.task_result,
          task := rd.original_task,
          user_topic := rd.user_topic.getD "user_session:main" } := by
    have := congrArg Prod.fst h2
    simp only at this
    rw [← this, checkCollaborationCompletion_pending]
  have hp3 : st3.pending_responses = st2.pending_responses := by
    have := congrArg Prod.fst h3
    simp only at this
    rw [← this, cleanupTimedOutCollaborations_pending]
  refine ⟨lookupA_insertA_self _ _ _, ?_, ?_⟩
  · intro hcount
    have hb : decide (((foundIndices st3.pending_responses).length : Int) ≥
        rd.original_task.total_subtasks.getD 1) = true := by
      rw [decide_eq_true_eq, foundIndices_length, hp3, hp2]
      exact hcount
    simp only [handleAgentResponse, h2, h3, hb]
    rfl
  · intro hcount
    have hb : decide (((foundIndices st3.pending_responses).length : Int) ≥
        rd.original_task.total_subtasks.getD 1) = false := by
      rw [decide_eq_false_iff_not, foundIndices_length, hp3, hp2]
      exact hcount
    simp only [handleAgentResponse, h2, h3, hb]
    rfl

/-- Witness for the amended C3: the two distinct indices 0 and 1 across the
whole index reach `beta`'s declared total of 2, so synthesis fires (for the
first recorded query, `alphaQ`) and the consumed entries are purged. -/
theorem handle_agent_response_index_completion_witness :
    handleAgentResponse (fun _ => none) sampleStateAlpha sampleResponseBeta 0 =
      ({ pending_responses := [("beta_1", sampleEntryBeta)],
         active_collaborations := [] },
       [Event.agentCompletedTask "topicU" "agent2",
        Event.synthesisStatus "topicU" 1,
        Event.couldNotSynthesize "topicU"]) :=
  ((handle_agent_response_index_completion (fun _ => none) sampleStateAlpha
      sampleResponseBeta 0 "topicU" "beta" "beta_1" sampleEntryBeta
      sampleStateBoth sampleStateBoth sampleStateBoth [] []
      (by decide) (by decide) (by decide) (by decide) (by decide)
      (by decide) (by decide)).2.1 (by decide)).trans (by decide)

/-- Claim C4 counterexample: the claim merges the two fallback paths, but
the no-content fallback (lines 324-373) uses word-count thresholds 10/20
and ignores complex keywords.  An 8-word task without complex keywords
falls in the claim's 2-subtask bucket (fewer than 15 words), yet the
no-content fallback returns exactly 1 subtask because 8 < 10. -/
theorem decompose_fallback_counterexample :
    wordCount "please write a short poem about my cat" = 8 ∧
    hasComplexKeywords "please write a short poem about my cat" = false ∧
    (decomposeFallbackNoContent "please write a short poem about my cat" []
      (fun _ => "general")).length = 1 := by decide

/-- Claim C4 (amended): the non-JSON fallback (completion text present but
unparsable) follows the claimed heuristic exactly — 1 subtask with no
dependencies when under 8 words without complex keywords, 2 subtasks with
the second depending on index 0 when under 15 words or any complex keyword
is present, else 3 subtasks chained 0 → 1 → 2; the no-content fallback
(completion unavailable) instead uses thresholds 10 and 20 on word count
alone, with the same dependency shapes. -/
theorem decompose_fallback_amended (complex_task : String)
    (available_agents : List String) (capOf : String → String) :
    ((decomposeFallbackNonJson complex_task available_agents capOf).map
        Subtask.dependencies =
      if wordCount complex_task < 8 ∧ hasComplexKeywords complex_task = false
      then [[]]
      else if wordCount complex_task < 15 ∨ hasComplexKeywords complex_task = true
      then [[], [0]]
      else [[], [0], [1]]) ∧
    ((decomposeFallbackNoContent complex_task available_agents capOf).map
        Subtask.dependencies =
      if wordCount complex_task < 10 then [[]]
      else if wordCount complex_task < 20 then [[], [0]]
      else [[], [0], [1]]) := by
  constructor
  · simp only [decomposeFallbackNonJson]
    by_cases h1 : wordCount complex_task < 8 <;>
      by_cases h2 : hasComplexKeywords complex_task = true <;>
        by_cases h3 : wordCount complex_task < 15 <;>
          simp [h1, h2, h3]
  · simp only [decomposeFallbackNoContent]
    by_cases h4 : wordCount complex_task < 10 <;>
      by_cases h5 : wordCount complex_task < 20 <;>
        simp [h4, h5]

/-! ## Lemmas for mention extraction -/

theorem validateMentions_aux (ms : List String) (reg : List String) :
    ∀ acc : List String, acc.Nodup → (∀ n ∈ acc, n ∈ reg) →
      ((ms.foldl
        (fun agent_names name =>
          let name_lower := pyToLower name
          if !agent_names.contains name_lower && reg.contains name_lower
          then agent_names ++ [name_lower]
          else agent_names)
        acc).Nodup ∧
       ∀ n ∈ ms.foldl
        (fun agent_names name =>
          let name_lower := pyToLower name
          if !agent_names.contains name_lower && reg.contains name_lower
          then agent_names ++ [name_lower]
          else agent_names)
        acc, n ∈ reg) := by
  induction ms with
  | nil => intro acc hnd hmem; exact ⟨hnd, hmem⟩
  | cons m rest ih =>
    intro acc hnd hmem
    simp only [List.foldl_cons]
    by_cases hcond : (!acc.contains (pyToLower m) && reg.contains (pyToLower m)) = true
    · have hnotin : pyToLower m ∉ acc := by
        have := (Bool.and_eq_true _ _).mp hcond
        simpa using this.1
      have hinreg : pyToLower m ∈ reg := by
        have := (Bool.and_eq_true _ _).mp hcond
        simpa using this.2
      have hstep : (let name_lower := pyToLower m
          if !acc.contains name_lower && reg.contains name_lower
          then acc ++ [name_lower] else acc) = acc ++ [pyToLower m] := by
        simp only [hcond, if_true]
      rw [hstep]
      apply ih
      · simp [List.nodup_append, hnd, hnotin]
      · intro n hn
        rcases List.mem_append.mp hn with hn | hn
        · exact hmem n hn
        · rw [List.mem_singleton.mp hn]
          exact hinreg
    · have hstep : (let name_lower := pyToLower m
          if !acc.contains name_lower && reg.contains name_lower
          then acc ++ [name_lower] else acc) = acc := by
        simp only [Bool.not_eq_true] at hcond
        simp only [hcond, if_false]
        rw [if_neg]
        simp [hcond]
      rw [hstep]
      exact ih acc hnd hmem

theorem validateMentions_spec (ms : List String) (reg : List String) :
    (validateMentions ms reg).Nodup ∧ ∀ n ∈ validateMentions ms reg, n ∈ reg :=
  validateMentions_aux ms reg [] List.nodup_nil (by simp)

/-- Claim C5 counterexample: the removal pass of `extract_mentions`
(line 63) strips every case-insensitive occurrence of an accepted
`@name`, even when it is a proper prefix of a longer, unregistered token:
with only `bob` registered, `"@bob @bobcat"` loses the `@bob` prefix of
`@bobcat` and yields `(["bob"], "cat")`, not the claimed untouched
`(["bob"], "@bobcat")`. -/
theorem extract_mentions_counterexample :
    extract_mentions "@bob @bobcat" ["bob"] ≠ (["bob"], "@bobcat") := by decide

/-- The source's validation loop equals, for every accumulator, the
spec-side first-occurrence de-duplication of the lowercased candidates
that are registered, prefixed by the accumulator. -/
theorem dedupFirstAux_congr (l : List String) :
    ∀ s1 s2 : List String, (∀ x, x ∈ s1 ↔ x ∈ s2) →
      dedupFirstAux l s1 = dedupFirstAux l s2 := by
  induction l with
  | nil => intro s1 s2 _; rfl
  | cons x xs ih =>
    intro s1 s2 h
    simp only [dedupFirstAux]
    by_cases hx : x ∈ s1
    · rw [if_pos hx, if_pos ((h x).mp hx)]
      exact ih s1 s2 h
    · rw [if_neg hx, if_neg (fun hx2 => hx ((h x).mpr hx2))]
      congr 1
      apply ih
      intro y
      simp only [List.mem_cons]
      exact or_congr Iff.rfl (h y)

theorem validateMentions_eq_aux (reg : List String) (ms : List String) :
    ∀ acc : List String,
      ms.foldl
        (fun agent_names name =>
          let name_lower := pyToLower name
          if !agent_names.contains name_lower && reg.contains name_lower
          then agent_names ++ [name_lower]
          else agent_names)
        acc =
      acc ++ dedupFirstAux ((ms.map pyToLower).filter
        (fun n => reg.contains n)) acc := by
  induction ms with
  | nil => intro acc; simp [dedupFirstAux]
  | cons m rest ih =>
    intro acc
    simp only [List.foldl_cons, List.map_cons, List.filter_cons]
    cases hc : reg.contains (pyToLower m) with
    | false =>
      simp only [Bool.and_false, Bool.false_eq_true, if_false]
      exact ih acc
    | true =>
      simp only [Bool.and_true, if_true]
      by_cases hm : pyToLower m ∈ acc
      · have hcontains : acc.contains (pyToLower m) = true := by simpa using hm
        simp only [hcontains, Bool.not_true, Bool.false_eq_true, if_false]
        simp only [dedupFirstAux, if_pos hm]
        exact ih acc
      · have hcontains : acc.contains (pyToLower m) = false := by simpa using hm
        simp only [hcontains, Bool.not_false, if_true]
        simp only [dedupFirstAux, if_neg hm]
        rw [ih (acc ++ [pyToLower m])]
        rw [dedupFirstAux_congr ((rest.map pyToLower).filter
            (fun n => reg.contains n)) (acc ++ [pyToLower m]) (pyToLower m :: acc)
          (by intro y; simp [List.mem_append, List.mem_cons, or_comm])]
        simp

/-- The accepted-mentions list is the spec-side first-occurrence
de-duplication of the lowercased candidates that are registered. -/
theorem validateMentions_eq_dedupFirst (ms reg : List String) :
    validateMentions ms reg =
      dedupFirst ((ms.map pyToLower).filter (fun n => reg.contains n)) := by
  simpa [validateMentions, dedupFirst] using validateMentions_eq_aux reg ms []

/-- The removal pass only deletes characters: its output is an
order-preserving subsequence of its input. -/
theorem subMentionsAux_sublist (agent_names : List String) :
    ∀ (fuel : Nat) (prev : Option Char) (cs : List Char),
      (subMentionsAux agent_names fuel prev cs).Sublist cs := by
  intro fuel
  induction fuel with
  | zero => intro prev cs; exact List.Sublist.refl cs
  | succ fuel ih =>
    intro prev cs
    cases cs with
    | nil => exact List.Sublist.refl []
    | cons c rest =>
      simp only [subMentionsAux]
      split
      · cases hm : matchValidName agent_names rest with
        | some n =>
          exact ((ih _ _).trans (List.drop_sublist n rest)).trans
            (List.sublist_cons_self c rest)
        | none => exact List.Sublist.cons₂ c (ih _ _)
      · exact List.Sublist.cons₂ c (ih _ _)

/-- `str.strip()` only deletes characters. -/
theorem pyStrip_data_sublist (s : String) : (pyStrip s).data.Sublist s.data := by
  show (((s.data.dropWhile Char.isWhitespace).reverse.dropWhile
    Char.isWhitespace).reverse).Sublist s.data
  have h1 : (s.data.dropWhile Char.isWhitespace).Sublist s.data :=
    List.dropWhile_sublist _
  have h2 : ((s.data.dropWhile Char.isWhitespace).reverse.dropWhile
      Char.isWhitespace).Sublist (s.data.dropWhile Char.isWhitespace).reverse :=
    List.dropWhile_sublist _
  have h3 := h2.reverse
  rw [List.reverse_reverse] at h3
  exact h3.trans h1

/-- Claim C5 (amended): for every input text and registry snapshot, the
returned names are the first-seen-ordered, de-duplicated lowercased regex
candidates (maximal `@\w+` tokens not preceded by a word character,
shortened by one trailing character when followed by a literal dot) whose
lowercase form names a registered agent; when no candidate is accepted the
text is returned unchanged (so unregistered tokens alone are never
stripped); when at least one is accepted, the cleaned text is exactly the
case-insensitive removal pass for the accepted names — deleting each
left-to-right non-overlapping occurrence of `@name` not preceded by a word
character and not followed by a dot — followed by whitespace trimming, a
pass that only deletes characters but also strips `@name` occurring as a
proper prefix of a longer unregistered token, so `"@bob @bobcat"` with
only `bob` registered yields `(["bob"], "cat")` rather than leaving
`@bobcat` untouched; the claim's quoted examples hold. -/
theorem extract_mentions_amended :
    (∀ (message : String) (registryNames : List String),
      (extract_mentions message registryNames).1 =
        dedupFirst ((((scanMentionsAux message.data.length none
            message.data).map List.asString).map pyToLower).filter
          (fun n => (registryNames.map pyToLower).contains n))) ∧
    (∀ (message : String) (registryNames : List String),
      (extract_mentions message registryNames).1.Nodup ∧
      ∀ n ∈ (extract_mentions message registryNames).1,
        n ∈ registryNames.map pyToLower) ∧
    (∀ (message : String) (registryNames : List String),
      (extract_mentions message registryNames).1 = [] →
        (extract_mentions message registryNames).2 = message) ∧
    (∀ (message : String) (registryNames : List String),
      (extract_mentions message registryNames).1 ≠ [] →
        (extract_mentions message registryNames).2 =
          pyStrip ((subMentionsAux (extract_mentions message registryNames).1
            message.data.length none message.data).asString)) ∧
    (∀ (message : String) (registryNames : List String),
      ((extract_mentions message registryNames).2).data.Sublist message.data) ∧
    extract_mentions "@bob hello" ["bob"] = (["bob"], "hello") ∧
    extract_mentions "contact user@example.com" ["bob"] =
      ([], "contact user@example.com") ∧
    extract_mentions "@unknown hi" ["bob"] = ([], "@unknown hi") ∧
    extract_mentions "@alice @bob do X" ["alice", "bob"] =
      (["alice", "bob"], "do X") ∧
    extract_mentions "@bob @bobcat" ["bob"] = (["bob"], "cat") := by
  refine ⟨?_, ?_, ?_, ?_, ?_, by decide, by decide, by decide, by decide,
    by decide⟩
  · intro message registryNames
    simp only [extract_mentions]
    split
    · split
      · exact validateMentions_eq_dedupFirst _ _
      · next hnames =>
        rw [← validateMentions_eq_dedupFirst]
        symm
        rw [← List.isEmpty_iff]
        simpa using hnames
    · next hraw =>
      have hempty : (scanMentionsAux message.data.length none
          message.data).map List.asString = [] := by
        rw [← List.isEmpty_iff]
        simpa using hraw
      rw [hempty]
      rfl
  · intro message registryNames
    simp only [extract_mentions]
    split
    · split
      · exact ⟨(validateMentions_spec _ _).1, (validateMentions_spec _ _).2⟩
      · simp
    · simp
  · intro message registryNames
    simp only [extract_mentions]
    split
    · split
      · next hnames =>
        intro h
        simp only at h
        rw [h] at hnames
        simp at hnames
      · intro _
        rfl
    · intro _
      rfl
  · intro message registryNames
    simp only [extract_mentions]
    split
    · split
      · intro _
        rfl
      · intro h
        exact absurd rfl h
    · intro h
      exact absurd rfl h
  · intro message registryNames
    simp only [extract_mentions]
    split
    · split
      · exact (pyStrip_data_sublist _).trans (subMentionsAux_sublist _ _ _ _)
      · exact List.Sublist.refl _
    · exact List.Sublist.refl _

/-- Witness for the amended C5: the accepted mention of `"@bob hello"` is a
registered name. -/
theorem extract_mentions_amended_witness :
    "bob" ∈ ["bob"].map pyToLower :=
  (extract_mentions_amended.2.1 "@bob hello" ["bob"]).2 "bob" (by decide)

/-! ## Lemmas for the dedup cache -/

theorem insertA_length_of_lookupA_none {α : Type} (l : List (String × α))
    (k : String) (v : α) (h : lookupA l k = none) :
    (insertA l k v).length = l.length + 1 := by
  induction l with
  | nil => rfl
  | cons kv rest ih =>
    cases hk : kv.1 == k with
    | true =>
      exfalso
      simp only [lookupA, List.find?, hk] at h
      cases h
    | false =>
      have hrest : lookupA rest k = none := by
        simp only [lookupA, List.find?, hk] at h ⊢
        exact h
      simp only [insertA, hk, Bool.false_eq_true, if_false, List.length_cons,
        ih hrest]

theorem insertA_length_of_lookupA_some {α : Type} (l : List (String × α))
    (k : String) (v w : α) (h : lookupA l k = some w) :
    (insertA l k v).length = l.length := by
  induction l with
  | nil => cases h
  | cons kv rest ih =>
    cases hk : kv.1 == k with
    | true => simp [insertA, hk]
    | false =>
      have hrest : lookupA rest k = some w := by
        simp only [lookupA, List.find?, hk] at h ⊢
        exact h
      simp only [insertA, hk, Bool.false_eq_true, if_false, List.length_cons,
        ih hrest]

theorem removeFirstWithTime_split (l : List (String × Int)) (m : Int)
    (h : m ∈ l.map (fun kv => kv.2)) :
    ∃ pre e post, l = pre ++ e :: post ∧ e.2 = m ∧
      removeFirstWithTime l m = pre ++ post := by
  induction l with
  | nil => simp at h
  | cons kv rest ih =>
    cases he : kv.2 == m with
    | true =>
      refine ⟨[], kv, rest, rfl, by simpa using he, ?_⟩
      simp [removeFirstWithTime, he]
    | false =>
      have hm : m ∈ rest.map (fun kv => kv.2) := by
        rcases List.mem_map.mp h with ⟨e2, he2, heq⟩
        rcases List.mem_cons.mp he2 with rfl | he2
        · exfalso
          rw [heq] at he
          simp at he
        · exact List.mem_map.mpr ⟨e2, he2, heq⟩
      obtain ⟨pre, e, post, hsplit, hem, hrem⟩ := ih hm
      refine ⟨kv :: pre, e, post, by rw [hsplit]; rfl, hem, ?_⟩
      simp [removeFirstWithTime, he, hrem]

theorem evictOldest_spec (l : List (String × Int)) (hne : l ≠ []) :
    ∃ pre e post, l = pre ++ e :: post ∧ (∀ e2 ∈ l, e.2 ≤ e2.2) ∧
      evictOldest l = pre ++ post := by
  have inst : Std.Antisymm fun x1 x2 : Int => x1 ≤ x2 :=
    ⟨fun h1 h2 => le_antisymm h1 h2⟩
  cases hm : (l.map (fun kv => kv.2)).min? with
  | none =>
    exfalso
    rw [List.min?_eq_none_iff] at hm
    exact hne (by simpa using hm)
  | some m =>
    have hmm : m ∈ l.map (fun kv => kv.2) ∧ ∀ b ∈ l.map (fun kv => kv.2), m ≤ b := by
      rw [List.min?_eq_some_iff] at hm
      · exact hm
      · exact fun a => le_refl a
      · exact fun a b => min_choice a b
      · exact fun a b c => le_min_iff
    obtain ⟨pre, e, post, hsplit, hem, hrem⟩ := removeFirstWithTime_split l m hmm.1
    refine ⟨pre, e, post, hsplit, ?_, ?_⟩
    · intro e2 he2
      rw [hem]
      exact hmm.2 e2.2 (List.mem_map.mpr ⟨e2, he2, rfl⟩)
    · simp only [evictOldest, hm]
      exact hrem

/-- Claim C8: a structurally identical message seen again within 5 time
units of the cached timestamp is suppressed with no state change; spaced
5 or more time units apart (in particular beyond 5) both are processed, as
is any message whose key is not cached; the cache never grows beyond 50
entries, and when it would, the entry holding the minimal (least-recently-
seen) timestamp is evicted. -/
theorem dedup_step_spec (recent : List (String × Int)) (key : String)
    (t1 t2 : Int) :
    (lookupA recent key = some t1 → t2 - t1 < 5 →
      dedupStep recent key t2 = (false, recent)) ∧
    (lookupA recent key = some t1 → t2 - t1 ≥ 5 →
      (dedupStep recent key t2).1 = true) ∧
    (lookupA recent key = none → (dedupStep recent key t2).1 = true) ∧
    (recent.length ≤ 50 → (dedupStep recent key t2).2.length ≤ 50) ∧
    (lookupA recent key = none → recent.length = 50 →
      ∃ pre e post, insertA recent key t2 = pre ++ e :: post ∧
        (∀ e2 ∈ insertA recent key t2, e.2 ≤ e2.2) ∧
        (dedupStep recent key t2).2 = pre ++ post) := by
  refine ⟨?_, ?_, ?_, ?_, ?_⟩
  · intro h hlt
    simp only [dedupStep, h]
    rw [if_pos hlt]
  · intro h hge
    simp only [dedupStep, h]
    rw [if_neg (by omega)]
  · intro h
    simp only [dedupStep, h]
  · intro hlen
    cases h : lookupA recent key with
    | some last_seen =>
      simp only [dedupStep, h]
      by_cases hlt : t2 - last_seen < 5
      · rw [if_pos hlt]
        exact hlen
      · rw [if_neg hlt]
        have hup : (insertA recent key t2).length = recent.length :=
          insertA_length_of_lookupA_some recent key t2 last_seen h
        simp only []
        rw [if_neg (by omega)]
        simpa [hup] using hlen
    | none =>
      simp only [dedupStep, h]
      have hup : (insertA recent key t2).length = recent.length + 1 :=
        insertA_length_of_lookupA_none recent key t2 h
      by_cases hover : (insertA recent key t2).length > 50
      · rw [if_pos hover]
        obtain ⟨pre, e, post, hsplit, _, hrem⟩ :=
          evictOldest_spec (insertA recent key t2)
            (by intro hnil; rw [hnil] at hup; simp at hup)
        rw [hrem]
        have : (insertA recent key t2).length = pre.length + post.length + 1 := by
          rw [hsplit]
          simp
          omega
        have hlen2 : (pre ++ post).length = recent.length := by
          simp only [List.length_append]
          omega
        rw [hlen2]
        exact hlen
      · rw [if_neg hover]
        omega
  · intro h hlen
    simp only [dedupStep, h]
    have hup : (insertA recent key t2).length = recent.length + 1 :=
      insertA_length_of_lookupA_none recent key t2 h
    rw [if_pos (by omega)]
    exact evictOldest_spec (insertA recent key t2)
      (by intro hnil; rw [hnil] at hup; simp at hup)

/-- Witness for C8: a repeat of a cached key 3 time units later is
suppressed and the cache is untouched. -/
theorem dedup_step_spec_witness :
    dedupStep [("k", 0)] "k" 3 = (false, [("k", 0)]) :=
  (dedup_step_spec [("k", 0)] "k" 0 3).1 (by decide) (by decide)

/-- Claim C9: after startup reconciliation, every record persisted as
`running` holds a (truthy) pid probing live; pointwise, a running record
whose pid probes live is left unchanged, while a running record with a
dead pid, a zero pid, or no pid at all is forced to `stopped`; records not
marked `running` are untouched. -/
theorem cleanup_stale_agents_spec (live : Int → Bool) (agents : List DbAgent) :
    (∀ a2 ∈ cleanupStaleAgents live agents, a2.status = "running" →
      ∃ p, a2.pid = some p ∧ p ≠ 0 ∧ live p = true) ∧
    List.Forall₂ (fun a a2 =>
      (a.status = "running" →
        (∀ p, a.pid = some p → p ≠ 0 → live p = true → a2 = a) ∧
        ((∀ p, a.pid = some p → p ≠ 0 → live p = false) →
          a2.status = "stopped")) ∧
      (a.status ≠ "running" → a2 = a))
      agents (cleanupStaleAgents live agents) := by
  constructor
  · intro a2 ha2 hrun
    simp only [cleanupStaleAgents] at ha2
    rcases List.mem_map.mp ha2 with ⟨a, _, hfa⟩
    by_cases hst : a.status == "running"
    · rw [if_pos hst] at hfa
      cases hpid : a.pid with
      | none =>
        rw [hpid] at hfa
        dsimp only at hfa
        rw [← hfa] at hrun
        simp at hrun
      | some p =>
        rw [hpid] at hfa
        dsimp only at hfa
        by_cases hz : p != 0
        · rw [if_pos hz] at hfa
          by_cases hl : live p = true
          · rw [if_pos hl] at hfa
            refine ⟨p, ?_, by simpa using hz, hl⟩
            rw [← hfa]
            exact hpid
          · rw [if_neg hl] at hfa
            rw [← hfa] at hrun
            simp at hrun
        · rw [if_neg hz] at hfa
          rw [← hfa] at hrun
          simp at hrun
    · rw [if_neg hst] at hfa
      exfalso
      apply hst
      rw [hfa]
      simpa using hrun
  · simp only [cleanupStaleAgents]
    rw [List.forall₂_map_right_iff, List.forall₂_same]
    intro a _
    constructor
    · intro hrun
      have hst : (a.status == "running") = true := by simpa using hrun
      constructor
      · intro p hpid hz hl
        rw [if_pos hst, hpid]
        dsimp only
        rw [if_pos (by simpa using hz), if_pos hl]
      · intro hdead
        rw [if_pos hst]
        cases hpid : a.pid with
        | none => rfl
        | some p =>
          dsimp only
          by_cases hz : (p != 0) = true
          · rw [if_pos hz]
            have hlp := hdead p hpid (by simpa using hz)
            rw [if_neg (by simp [hlp])]
          · rw [if_neg hz]
    · intro hnrun
      rw [if_neg (by simpa using hnrun)]

/-- Witness for C9: a running record whose pid 7 probes live keeps a live
pid after reconciliation. -/
theorem cleanup_stale_agents_spec_witness :
    ∃ p, (DbAgent.mk "x" "running" (some 7)).pid = some p ∧ p ≠ 0 ∧
      (fun _ : Int => true) p = true :=
  (cleanup_stale_agents_spec (fun _ => true)
      [DbAgent.mk "x" "running" (some 7)]).1
    (DbAgent.mk "x" "running" (some 7)) (by decide) rfl

/-- Claim C10 counterexample: with one known agent and a persisted
round-robin index of 1 (left over from a call made when two agents were
known), `find_agent_for_task` indexes past the end of the agent list and
raises `IndexError` instead of returning an agent or `None`. -/
theorem find_agent_for_task_counterexample :
    findAgentForTask
      { available_agents := ["a"], last_assigned_agent_index := some 1 } [] =
      Except.error "IndexError: list index out of range" := by rfl

/-- Claim C10 (amended): the selector returns `None` when no agents are
known and discovery yields none; otherwise, when the persisted index is
within the current agent list it returns that agent and advances the index
modulo the list length — but when the persisted index is not smaller than
the current list length (possible after the known-agent set shrinks), the
call raises an index error rather than wrapping first. -/
theorem find_agent_for_task_amended (st : DiscoveryState)
    (discovered : List String) :
    (st.available_agents = [] → discovered = [] →
      findAgentForTask st discovered =
        Except.ok (none, { st with available_agents := [] })) ∧
    (∀ agents0, agents0 = (if st.available_agents.isEmpty then discovered
        else st.available_agents) → agents0 ≠ [] →
      (∀ h : st.last_assigned_agent_index.getD 0 < agents0.length,
        findAgentForTask st discovered =
          Except.ok (some (agents0.get ⟨st.last_assigned_agent_index.getD 0, h⟩),
            { available_agents := agents0,
              last_assigned_agent_index :=
                some ((st.last_assigned_agent_index.getD 0 + 1) % agents0.length) }) ∧
        agents0.get ⟨st.last_assigned_agent_index.getD 0, h⟩ ∈ agents0) ∧
      (agents0.length ≤ st.last_assigned_agent_index.getD 0 →
        findAgentForTask st discovered =
          Except.error "IndexError: list index out of range")) := by
  constructor
  · intro h1 h2
    simp [findAgentForTask, h1, h2]
  · intro agents0 heq hne
    subst heq
    have hie : (if st.available_agents.isEmpty then discovered
        else st.available_agents).isEmpty = false := by
      cases hl : (if st.available_agents.isEmpty then discovered
          else st.available_agents) with
      | nil => exact absurd hl hne
      | cons a rest => rfl
    constructor
    · intro h
      constructor
      · simp only [findAgentForTask, hie, Bool.false_eq_true, if_false]
        rw [dif_pos h]
      · exact List.get_mem _ _ _
    · intro h
      simp only [findAgentForTask, hie, Bool.false_eq_true, if_false]
      rw [dif_neg (by omega)]

/-- Witness for the amended C10: from two known agents and no persisted
index, the selector returns the first agent and advances the index to 1. -/
theorem find_agent_for_task_amended_witness :
    findAgentForTask
      { available_agents := ["a", "b"], last_assigned_agent_index := none } [] =
      Except.ok (some "a",
        { available_agents := ["a", "b"], last_assigned_agent_index := some 1 }) :=
  (((find_agent_for_task_amended
      { available_agents := ["a", "b"], last_assigned_agent_index := none }
      []).2 ["a", "b"] (by decide) (by decide)).1 (by decide)).1

end AIAgents
